import Mathlib

/-!
Verification development for the spatial-autocorrelation pipeline of
`src/cluster.py` (GeoInformatica).

The script prepares a `precio_m2 = total_uf / t_constr` value column,
filters rows (`t_constr > 0`, drop NaN `precio_m2`), builds a KNN
weights matrix, row-standardizes it, and computes Global Moran's I and
Local Moran (LISA) with permutation p-values via the `libpysal`/`esda`
libraries; it then stores `lisa.q` as `lisa_cluster` and
`lisa.p_sim < 0.05` as `lisa_sig`, and maps codes 1..4 to labels.

The data-preparation steps, the significance threshold and the label
dictionary are embedded directly from the source.  The statistical
engine itself (neighbor graph, weights, Moran, LISA, permutation
inference) lives in external libraries, not in this repository's
sources, so those components are modelled from the spec (each such
definition's doc comment says so).
-/

/-- IEEE-754-like value: NaN, +Inf, -Inf or a finite value (modelled as a
rational; signed zero is not distinguished).  Used to embed the pandas
float column arithmetic of `cluster.py` lines 111-114. -/
inductive FVal where
  | nan : FVal
  | pinf : FVal
  | ninf : FVal
  | fin : ℚ → FVal
deriving DecidableEq, Repr

namespace FVal

/-- IEEE-style strict less-than on float values: any comparison with NaN
is false; -Inf below all finite values, +Inf above. -/
def flt : FVal → FVal → Bool
  | nan, _ => false
  | _, nan => false
  | pinf, _ => false
  | _, pinf => true
  | _, ninf => false
  | ninf, _ => true
  | fin a, fin b => decide (a < b)

/-- Is this value NaN?  (`pandas.dropna` drops exactly the NaN entries;
infinities are not NaN.) -/
def isNaN : FVal → Bool
  | nan => true
  | _ => false

/-- IEEE-style division (signed zero ignored): NaN propagates, Inf/Inf and
0/0 are NaN, Inf divided by a finite value stays infinite with the
appropriate sign, a finite value divided by Inf is 0, and a nonzero
finite value divided by 0 is a signed infinity. -/
def fdiv : FVal → FVal → FVal
  | nan, _ => nan
  | _, nan => nan
  | pinf, pinf => nan
  | pinf, ninf => nan
  | ninf, pinf => nan
  | ninf, ninf => nan
  | pinf, fin b => if b < 0 then ninf else pinf
  | ninf, fin b => if b < 0 then pinf else ninf
  | fin _, pinf => fin 0
  | fin _, ninf => fin 0
  | fin a, fin b =>
      if b = 0 then (if a = 0 then nan else if 0 < a then pinf else ninf)
      else fin (a / b)

end FVal

/-- An input record of the shapefile table: the two columns
`cluster.py` requires (`total_uf`, `t_constr`), as float values. -/
structure Record where
  total_uf : FVal
  t_constr : FVal
deriving DecidableEq, Repr

/-- Source `cluster.py` line 111: `gdf["precio_m2"] = gdf["total_uf"] / gdf["t_constr"]`. -/
def precio_m2 (r : Record) : FVal := FVal.fdiv r.total_uf r.t_constr

/-- Source `cluster.py` line 114:
`gdf = gdf[gdf["t_constr"] > 0].dropna(subset=["precio_m2"])` —
after attaching the `precio_m2` column, keep rows whose `t_constr`
compares strictly greater than 0 (false for NaN) and whose `precio_m2`
is not NaN.  No error is signalled; offending rows are removed. -/
def filteredRecords (g : List Record) : List (Record × FVal) :=
  ((g.map (fun r => (r, precio_m2 r))).filter
      (fun p => FVal.flt (FVal.fin 0) p.1.t_constr)).filter
    (fun p => !p.2.isNaN)

/-- Source `cluster.py` line 126: `y = gdf["precio_m2"].values` — the value
array handed to both Moran computations, after the filter. -/
def yValues (g : List Record) : List FVal :=
  (filteredRecords g).map Prod.snd

/-- Source `cluster.py` line 137: `gdf["lisa_sig"] = lisa.p_sim < 0.05` — the
vectorized strict comparison of each unit's simulated p-value against
the default alpha 0.05. -/
def lisa_sig (ps : List ℚ) : List Bool :=
  ps.map (fun p => decide (p < 5 / 100))

/-- Source `cluster.py` lines 145-150: the dictionary mapping the numeric LISA
quadrant codes to their labels (`1=HH, 2=LH, 3=LL, 4=HL` per the source
comment on line 144); any other code is unmapped (pandas `.map` yields
NaN, modelled as `none`). -/
def cluster_labels (q : ℕ) : Option String :=
  if q = 1 then some "Alto-Alto (Hotspot)"
  else if q = 2 then some "Bajo-Alto"
  else if q = 3 then some "Bajo-Bajo (Coldspot)"
  else if q = 4 then some "Alto-Bajo"
  else none

/-- Modelled from the spec: the error kinds of the statistical engine
(§7); the engine itself (libpysal/esda) is not part of this
repository's sources. -/
inductive EngineError where
  | InvalidK : EngineError
  | NoNeighbors : EngineError
  | DegenerateVariance : EngineError
  | NonFiniteInput : EngineError
deriving DecidableEq, Repr

/-- Squared Euclidean distance between two projected coordinate pairs. -/
def sqDist (a b : ℚ × ℚ) : ℚ :=
  (a.1 - b.1) ^ 2 + (a.2 - b.2) ^ 2

/-- Insert a (distance, index) pair into a list sorted by distance with
ties broken by ascending unit index (spec §4.1's determinism rule). -/
def insertByDist (x : ℚ × ℕ) : List (ℚ × ℕ) → List (ℚ × ℕ)
  | [] => [x]
  | y :: ys =>
      if x.1 < y.1 ∨ (x.1 = y.1 ∧ x.2 < y.2) then x :: y :: ys
      else y :: insertByDist x ys

/-- Insertion sort of (distance, index) pairs. -/
def sortByDist (l : List (ℚ × ℕ)) : List (ℚ × ℕ) :=
  l.foldr insertByDist []

/-- Modelled from the spec (§4.1, NeighborGraphBuilder): the k units
other than `i` nearest to `i` in Euclidean distance, ties broken by
ascending index. -/
def kNearest (coords : List (ℚ × ℚ)) (i k : ℕ) : List ℕ :=
  let cands := ((List.range coords.length).filter (fun j => j ≠ i)).map
    (fun j => (sqDist (coords.getD i (0, 0)) (coords.getD j (0, 0)), j))
  ((sortByDist cands).take k).map Prod.snd

/-- Modelled from the spec (§4.1): the KNN neighbor-graph builder behind
`libpysal.weights.KNN.from_dataframe(gdf, k=8)` (`cluster.py` line 120);
fails with `InvalidK` if `k ≥ N` or `k < 1`, otherwise returns each
unit's neighbor list. -/
def knnBuild (coords : List (ℚ × ℚ)) (k : ℕ) : Except EngineError (List (List ℕ)) :=
  if k < 1 ∨ coords.length ≤ k then .error .InvalidK
  else .ok ((List.range coords.length).map (fun i => kNearest coords i k))

/-- Modelled from the spec (§4.2, WeightsMatrix): `w.transform = "R"`
(`cluster.py` line 121) row-standardizes the weights: each edge starts
with weight 1 and each row is divided by its neighbor count; fails with
`NoNeighbors` if some row is empty. -/
def row_standardize (g : List (List ℕ)) : Except EngineError (List (List (ℕ × ℚ))) :=
  if g.any List.isEmpty then .error .NoNeighbors
  else .ok (g.map (fun row => row.map (fun j => (j, 1 / (row.length : ℚ)))))

/-- Modelled from the spec (§2, §5 PermutationEngine): one step of a
linear congruential generator, the deterministic seeded random stream. -/
def lcg (s : ℕ) : ℕ := (s * 1103515245 + 12345) % 2147483648

/-- Stream seed for global-Moran replication `r` (spec §5: base seed
combined with a replication index). -/
def seedFor (seed r : ℕ) : ℕ := lcg (seed + 1000003 * r)

/-- Stream seed for LISA unit `u`, replication `r` (spec §5: base seed
combined with a unit/replication index). -/
def seedFor2 (seed u r : ℕ) : ℕ := lcg (seed + 7919 * u + 104729 * r + 1)

/-- Fisher-Yates-style extraction shuffle driven by the LCG stream:
repeatedly pick position `s % length`, emit it, recurse on the rest. -/
def shuffleFuel {α : Type} : ℕ → ℕ → List α → List α
  | 0, _, xs => xs
  | _ + 1, _, [] => []
  | n + 1, s, x :: xs =>
      (x :: xs).get ⟨s % (x :: xs).length, Nat.mod_lt s (Nat.succ_pos xs.length)⟩ ::
        shuffleFuel n (lcg s) ((x :: xs).eraseIdx (s % (x :: xs).length))

/-- Modelled from the spec (PermutationEngine): a deterministic shuffle
of a list from a seed. -/
def shuffle {α : Type} (s : ℕ) (xs : List α) : List α :=
  shuffleFuel xs.length s xs

/-- Mean of a rational list (0 for the empty list, since 0/0 = 0 in ℚ). -/
def listMean (y : List ℚ) : ℚ := y.sum / y.length

/-- Deviations from the mean, `z_i = y_i - mean y` (spec §4.3 step 1). -/
def devs (y : List ℚ) : List ℚ := y.map (fun v => v - listMean y)

/-- Sum of squared deviations, `Σ_i z_i²`. -/
def sumSq (z : List ℚ) : ℚ := (z.map (fun v => v ^ 2)).sum

/-- Spatial lag of unit `i`: `Σ_j w_ij z_j` over `i`'s weighted
neighbors (spec §4.4 step 1). -/
def lagAt (w : List (List (ℕ × ℚ))) (z : List ℚ) (i : ℕ) : ℚ :=
  ((w.getD i []).map (fun p => p.2 * z.getD p.1 0)).sum

/-- Total weight `S0 = Σ_i Σ_j w_ij` (spec §4.2). -/
def sumOfWeights (w : List (List (ℕ × ℚ))) : ℚ :=
  (w.map (fun row => (row.map Prod.snd).sum)).sum

/-- Global Moran's I of a deviation vector:
`(N/S0) * (Σ_i Σ_j w_ij z_i z_j) / (Σ_i z_i²)` (spec §4.3 step 2),
with the double sum written as `Σ_i z_i * lag_i`. -/
def computeI (w : List (List (ℕ × ℚ))) (z : List ℚ) : ℚ :=
  ((z.length : ℚ) / sumOfWeights w) *
    (((List.range z.length).map (fun i => z.getD i 0 * lagAt w z i)).sum / sumSq z)

/-- Expected value of I under randomization, `E[I] = -1/(N-1)` (spec §3). -/
def expectedI (N : ℕ) : ℚ := -1 / ((N : ℚ) - 1)

/-- Reindex a deviation vector by a permutation of indices. -/
def applyPerm (p : List ℕ) (z : List ℚ) : List ℚ :=
  p.map (fun j => z.getD j 0)

/-- Modelled from the spec (§3): the Global Moran result record. -/
structure GlobalMoranResult where
  I : ℚ
  EI : ℚ
  p_sim : ℚ
  permutations : ℕ
deriving DecidableEq, Repr

/-- Modelled from the spec (§4.3, GlobalMoranStatistic): `Moran(y, w)`
(`cluster.py` line 127).  Fails with `DegenerateVariance` when the sum
of squared deviations is 0; otherwise computes the observed `I` and the
one-sided pseudo p-value `(c+1)/(R+1)`, where `c` counts the `R` seeded
label permutations whose recomputed `I` is at least as extreme as the
observed one in the direction of its sign relative to `E[I]`. -/
def moran (y : List ℚ) (w : List (List (ℕ × ℚ))) (R seed : ℕ) :
    Except EngineError GlobalMoranResult :=
  let z := devs y
  if sumSq z = 0 then .error .DegenerateVariance
  else
    let N := y.length
    let Iobs := computeI w z
    let Is := (List.range R).map
      (fun r => computeI w (applyPerm (shuffle (seedFor seed r) (List.range N)) z))
    let c := if expectedI N ≤ Iobs then Is.countP (fun x => decide (Iobs ≤ x))
             else Is.countP (fun x => decide (x ≤ Iobs))
    .ok ⟨Iobs, expectedI N, ((c : ℚ) + 1) / ((R : ℚ) + 1), R⟩

/-- Modelled from the spec (§3): one LISA result, for one unit. -/
structure LocalMoranResult where
  Ii : ℚ
  q : ℕ
  p_sim : ℚ
deriving DecidableEq, Repr

/-- Modelled from the spec (§4.4 step 3): quadrant code from the sign
pair `(sign z_i, sign lag_i)` with zero classified on the non-negative
branch; codes 1=HH, 2=LH, 3=LL, 4=HL. -/
def quadrant (z lag : ℚ) : ℕ :=
  if 0 ≤ z then (if 0 ≤ lag then 1 else 4)
  else (if 0 ≤ lag then 2 else 3)

/-- The quantity `m2 = (Σ_k z_k²)/N` (spec §4.4 step 2). -/
def m2 (z : List ℚ) : ℚ := sumSq z / z.length

/-- Per-unit local Moran value `Ii = (z_i * lag_i) / m2` (spec §4.4 step 2). -/
def localIi (w : List (List (ℕ × ℚ))) (z : List ℚ) (i : ℕ) : ℚ :=
  z.getD i 0 * lagAt w z i / m2 z

/-- Modelled from the spec (§4.4 step 4): conditional permutation for
unit `i` — hold `z_i` fixed, shuffle the remaining deviations among the
other positions, with a stream derived from (seed, unit, replication). -/
def condPermZ (seed u r : ℕ) (z : List ℚ) : List ℚ :=
  (shuffle (seedFor2 seed u r) (z.eraseIdx u)).insertIdx u (z.getD u 0)

/-- Modelled from the spec (§4.4 step 4): unit `i`'s conditional
permutation pseudo p-value, one-sided toward the sign of the observed
`Ii`, `p = (c+1)/(R+1)`. -/
def localP (y : List ℚ) (w : List (List (ℕ × ℚ))) (R seed i : ℕ) : ℚ :=
  let z := devs y
  let Iobs := localIi w z i
  let Is := (List.range R).map (fun r => localIi w (condPermZ seed i r z) i)
  let c := if 0 ≤ Iobs then Is.countP (fun x => decide (Iobs ≤ x))
           else Is.countP (fun x => decide (x ≤ Iobs))
  ((c : ℚ) + 1) / ((R : ℚ) + 1)

/-- Unit `i`'s LISA record: observed `Ii`, quadrant code from
`(z_i, lag_i)`, conditional p-value. -/
def localMoranAt (y : List ℚ) (w : List (List (ℕ × ℚ))) (R seed i : ℕ) :
    LocalMoranResult :=
  let z := devs y
  ⟨localIi w z i, quadrant (z.getD i 0) (lagAt w z i), localP y w R seed i⟩

/-- Modelled from the spec (§4.4, LocalMoranStatistic):
`Moran_Local(y, w)` (`cluster.py` line 133); fails with
`DegenerateVariance` on constant input, otherwise returns one result
per unit, aligned with the unit order of `y`. -/
def lisa (y : List ℚ) (w : List (List (ℕ × ℚ))) (R seed : ℕ) :
    Except EngineError (List LocalMoranResult) :=
  if sumSq (devs y) = 0 then .error .DegenerateVariance
  else .ok ((List.range y.length).map (fun i => localMoranAt y w R seed i))

/-- The statistical pipeline of `cluster.py` lines 120-137 after data
preparation: build the KNN graph, row-standardize, then compute Global
Moran and LISA in that order. -/
def runPipeline (coords : List (ℚ × ℚ)) (y : List ℚ) (k R seed : ℕ) :
    Except EngineError (GlobalMoranResult × List LocalMoranResult) := do
  let g ← knnBuild coords k
  let w ← row_standardize g
  let gm ← moran y w R seed
  let lm ← lisa y w R seed
  pure (gm, lm)

/-- The weights matrix of two units that are each other's single
neighbor (used to instantiate general theorems). -/
def wPair : List (List (ℕ × ℚ)) := [[(1, 1)], [(0, 1)]]

/-- A two-unit value array with mean zero (used to instantiate general
theorems). -/
def yPair : List ℚ := [1, -1]

/-- Bounds of the pseudo p-value formula: for `c ≤ R`,
`(c+1)/(R+1)` lies in `[1/(R+1), 1]`. -/
theorem pseudoPBounds (c R : ℕ) (hc : c ≤ R) :
    1 / ((R : ℚ) + 1) ≤ ((c : ℚ) + 1) / ((R : ℚ) + 1) ∧
      ((c : ℚ) + 1) / ((R : ℚ) + 1) ≤ 1 := by
  have hRpos : (0 : ℚ) < (R : ℚ) + 1 := by positivity
  constructor
  · exact (div_le_div_iff_of_pos_right hRpos).mpr (le_add_of_nonneg_left (Nat.cast_nonneg c))
  · exact (div_le_one hRpos).mpr (by exact_mod_cast Nat.succ_le_succ hc)

/-- Every unit's conditional LISA p-value obeys the pseudo p-value
bounds. -/
theorem localPBounds (y : List ℚ) (w : List (List (ℕ × ℚ))) (R seed i : ℕ) :
    1 / ((R : ℚ) + 1) ≤ localP y w R seed i ∧ localP y w R seed i ≤ 1 := by
  simp only [localP]
  apply pseudoPBounds
  split <;> exact le_trans (List.countP_le_length _) (by simp)

/-- Claim C1: in the stored LISA significance column
(`cluster.py` line 137) the flag at position `i` is `true` if and only
if the unit's simulated p-value is strictly less than the default alpha
0.05 (strict inequality). -/
theorem lisa_sig_iff_p_lt_alpha (ps : List ℚ) (i : ℕ) (h : i < ps.length) :
    (lisa_sig ps).getD i false = true ↔ ps.getD i 0 < 5 / 100 := by
  simp [lisa_sig, List.getD_eq_getElem?_getD, List.getElem?_eq_getElem h]

/-- Witness for C1 at `ps = [1/100]`, `i = 0`. -/
theorem lisa_sig_iff_p_lt_alpha_witness :
    (0 < ([(1 : ℚ) / 100] : List ℚ).length) ∧
      ((lisa_sig [(1 : ℚ) / 100]).getD 0 false = true ↔
        ([(1 : ℚ) / 100] : List ℚ).getD 0 0 < 5 / 100) :=
  ⟨by decide, lisa_sig_iff_p_lt_alpha [(1 : ℚ) / 100] 0 (by decide)⟩

/-- Claim C2: the quadrant code is determined by the sign pair
`(sign z_i, sign lag_i)` with zero on the non-negative branch —
`(+,+) → 1`, `(−,+) → 2`, `(−,−) → 3`, `(+,−) → 4` — and the program's
codes 1, 2, 3, 4 denote HH (Alto-Alto), LH (Bajo-Alto), LL (Bajo-Bajo),
HL (Alto-Bajo) respectively. -/
theorem quadrant_sign_pairs_and_codes (z lag : ℚ) :
    (quadrant z lag = 1 ↔ 0 ≤ z ∧ 0 ≤ lag) ∧
    (quadrant z lag = 2 ↔ z < 0 ∧ 0 ≤ lag) ∧
    (quadrant z lag = 3 ↔ z < 0 ∧ lag < 0) ∧
    (quadrant z lag = 4 ↔ 0 ≤ z ∧ lag < 0) ∧
    cluster_labels 1 = some "Alto-Alto (Hotspot)" ∧
    cluster_labels 2 = some "Bajo-Alto" ∧
    cluster_labels 3 = some "Bajo-Bajo (Coldspot)" ∧
    cluster_labels 4 = some "Alto-Bajo" := by
  refine ⟨?_, ?_, ?_, ?_, rfl, rfl, rfl, rfl⟩ <;>
    · unfold quadrant
      split_ifs with h1 h2 h2 <;> simp_all

/-- Claim C4: on any constant value array (for example `[5,5,5,5]`) the
sum of squared deviations is zero, so both the Global Moran and the
Local Moran computations fail with `DegenerateVariance` instead of
returning a value. -/
theorem moran_lisa_constant_degenerate (n : ℕ) (c : ℚ)
    (w : List (List (ℕ × ℚ))) (R seed : ℕ) :
    moran (List.replicate n c) w R seed = .error .DegenerateVariance ∧
    lisa (List.replicate n c) w R seed = .error .DegenerateVariance := by
  have hdev : devs (List.replicate n c) = List.replicate n 0 := by
    cases n with
    | zero => simp [devs]
    | succ m =>
        have hmean : listMean (List.replicate (m + 1) c) = c := by
          have hne : ((m : ℚ) + 1) ≠ 0 := by positivity
          simp [listMean, List.sum_replicate, nsmul_eq_mul]
          field_simp
        simp [devs, hmean]
  have hz : sumSq (devs (List.replicate n c)) = 0 := by
    simp [hdev, sumSq, List.map_replicate, List.sum_replicate]
  constructor
  · simp only [moran]
    rw [if_pos hz]
  · simp only [lisa]
    rw [if_pos hz]

/-- Claim C5: the whole computation is a pure function of the inputs
and the seed, so two invocations with identical values, weights,
permutation count and seed return identical Global Moran results
(statistic and p-value) and identical per-unit LISA results
(`Ii`, quadrant and p-value). -/
theorem moran_lisa_deterministic (y₁ y₂ : List ℚ)
    (w₁ w₂ : List (List (ℕ × ℚ))) (R₁ R₂ s₁ s₂ : ℕ)
    (hy : y₁ = y₂) (hw : w₁ = w₂) (hR : R₁ = R₂) (hs : s₁ = s₂) :
    moran y₁ w₁ R₁ s₁ = moran y₂ w₂ R₂ s₂ ∧
    lisa y₁ w₁ R₁ s₁ = lisa y₂ w₂ R₂ s₂ := by
  subst hy hw hR hs
  exact ⟨rfl, rfl⟩

/-- Witness for C5 at `y = [1,-1]`, the pair weights, `R = 1`, seed 0. -/
theorem moran_lisa_deterministic_witness :
    moran yPair wPair 1 0 = moran yPair wPair 1 0 ∧
    lisa yPair wPair 1 0 = lisa yPair wPair 1 0 :=
  moran_lisa_deterministic yPair yPair wPair wPair 1 1 0 0 rfl rfl rfl rfl

/-- Claim C3: after row-standardization, every row of a successfully
built weights matrix (all such rows have ≥ 1 neighbor, since
`row_standardize` rejects empty rows) has weights summing to exactly 1,
hence to 1.0 within the 1e-9 tolerance. -/
theorem row_standardize_row_sum_one (g : List (List ℕ))
    (rows : List (List (ℕ × ℚ))) (r : List (ℕ × ℚ))
    (h : row_standardize g = .ok rows) (hr : r ∈ rows) :
    (r.map Prod.snd).sum = 1 ∧ |(r.map Prod.snd).sum - 1| ≤ 1 / 1000000000 := by
  simp only [row_standardize] at h
  by_cases he : g.any List.isEmpty
  · rw [if_pos he] at h
    exact absurd h (by simp)
  · rw [if_neg he] at h
    have hrows := Except.ok.inj h
    subst hrows
    obtain ⟨row, hrowg, rfl⟩ := List.mem_map.mp hr
    have hne : row ≠ [] := by
      intro hnil
      exact he (List.any_eq_true.mpr ⟨row, hrowg, by simp [hnil]⟩)
    have hlen : (row.length : ℚ) ≠ 0 :=
      Nat.cast_ne_zero.mpr (List.length_pos.mpr hne).ne'
    have hsum : ((row.map (fun j => (j, 1 / (row.length : ℚ)))).map Prod.snd).sum = 1 := by
      rw [List.map_map]
      have hconst : (Prod.snd ∘ fun j : ℕ => (j, 1 / (row.length : ℚ))) =
          fun _ : ℕ => 1 / (row.length : ℚ) := rfl
      rw [hconst, List.map_const', List.sum_replicate, nsmul_eq_mul]
      field_simp
    exact ⟨hsum, by rw [hsum]; norm_num⟩

/-- Witness for C3 at the 3-unit graph `[[1,2],[0,2],[0,1]]`. -/
theorem row_standardize_row_sum_one_witness :
    (([((1 : ℕ), (1 : ℚ) / 2), ((2 : ℕ), (1 : ℚ) / 2)].map Prod.snd).sum = 1) ∧
      |([((1 : ℕ), (1 : ℚ) / 2), ((2 : ℕ), (1 : ℚ) / 2)].map Prod.snd).sum - 1| ≤
        1 / 1000000000 :=
  row_standardize_row_sum_one [[1, 2], [0, 2], [0, 1]]
    [[(1, 1 / 2), (2, 1 / 2)], [(0, 1 / 2), (2, 1 / 2)], [(0, 1 / 2), (1, 1 / 2)]]
    [(1, 1 / 2), (2, 1 / 2)] (by rfl) (by simp)

/-- Claim C6: for any permutation count `R ≥ 1`, the global simulated
p-value and every unit's LISA p-value lie in `[1/(R+1), 1]`, as forced
by `p = (c+1)/(R+1)` with `0 ≤ c ≤ R`. -/
theorem p_sim_bounds (y : List ℚ) (w : List (List (ℕ × ℚ))) (R seed : ℕ)
    (g : GlobalMoranResult) (ls : List LocalMoranResult)
    (hR : 1 ≤ R) (hg : moran y w R seed = .ok g) (hl : lisa y w R seed = .ok ls) :
    (1 / ((R : ℚ) + 1) ≤ g.p_sim ∧ g.p_sim ≤ 1) ∧
    ls.all (fun lr => decide (1 / ((R : ℚ) + 1) ≤ lr.p_sim ∧ lr.p_sim ≤ 1)) = true := by
  simp only [moran] at hg
  simp only [lisa] at hl
  by_cases hz : sumSq (devs y) = 0
  · rw [if_pos hz] at hg
    exact absurd hg (by simp)
  · rw [if_neg hz] at hg
    rw [if_neg hz] at hl
    have hgv := Except.ok.inj hg
    have hlv := Except.ok.inj hl
    subst hgv hlv
    constructor
    · apply pseudoPBounds
      split <;> exact le_trans (List.countP_le_length _) (by simp)
    · rw [List.all_eq_true]
      intro lr hmem
      obtain ⟨i, hi, rfl⟩ := List.mem_map.mp hmem
      exact decide_eq_true (localPBounds y w R seed i)

/-- The Global Moran result of `moran yPair wPair 1 0` (used to
instantiate general theorems). -/
def gPairRes : GlobalMoranResult := ⟨-1, -1, 1, 1⟩

/-- The LISA output of `lisa yPair wPair 1 0` (used to instantiate
general theorems). -/
def lsPairRes : List LocalMoranResult := [⟨-1, 4, 1⟩, ⟨-1, 2, 1⟩]

/-- Literal form of `List.range 1`. -/
theorem rangeOne : List.range 1 = [0] := rfl

/-- Literal form of `List.range 2`. -/
theorem rangeTwo : List.range 2 = [0, 1] := rfl

/-- Head of a literal list by index. -/
theorem getElemConsZero {α : Type} (a : α) (l : List α)
    (h : 0 < (a :: l).length) : GetElem.getElem (a :: l) 0 h = a := rfl

/-- Second element of a literal list by index. -/
theorem getElemConsOne {α : Type} (a b : α) (l : List α)
    (h : 1 < (a :: b :: l).length) : GetElem.getElem (a :: b :: l) 1 h = b := rfl

/-- Concrete evaluation: the Global Moran run on `yPair`, `wPair`,
one permutation, seed 0 (two units that are mutual neighbors with
opposite values give `I = -1` and `p_sim = 1`). -/
theorem moranPairEval : moran yPair wPair 1 0 = Except.ok gPairRes := by
  have hdev : devs [(1 : ℚ), -1] = [1, -1] := by norm_num [devs, listMean]
  have hss : sumSq [(1 : ℚ), -1] = 2 := by norm_num [sumSq]
  have hI : computeI wPair [1, -1] = -1 := by
    norm_num [computeI, lagAt, sumOfWeights, wPair, sumSq, rangeTwo,
      getElemConsZero, getElemConsOne]
  have hsh : shuffle (seedFor 0 0) [0, 1] = [1, 0] := by
    norm_num [shuffle, shuffleFuel, lcg, seedFor]
  have hap : applyPerm [1, 0] [1, -1] = [-1, 1] := by norm_num [applyPerm]
  have hI2 : computeI wPair [-1, 1] = -1 := by
    norm_num [computeI, lagAt, sumOfWeights, wPair, sumSq, rangeTwo,
      getElemConsZero, getElemConsOne]
  simp only [moran, yPair, hdev, gPairRes]
  norm_num [hss, hI, hsh, hap, hI2, expectedI, rangeOne, rangeTwo, Function.comp,
    List.countP_cons, List.countP_nil]

/-- Concrete evaluation: the LISA run on `yPair`, `wPair`, one
permutation, seed 0 (each unit gets `Ii = -1`, quadrants HL and LH,
`p_sim = 1`). -/
theorem lisaPairEval : lisa yPair wPair 1 0 = Except.ok lsPairRes := by
  have hdev : devs [(1 : ℚ), -1] = [1, -1] := by norm_num [devs, listMean]
  have hss : sumSq [(1 : ℚ), -1] = 2 := by norm_num [sumSq]
  have hm2 : m2 [(1 : ℚ), -1] = 1 := by norm_num [m2, sumSq]
  have hlag0 : lagAt wPair [1, -1] 0 = -1 := by
    norm_num [lagAt, wPair, getElemConsZero, getElemConsOne]
  have hlag1 : lagAt wPair [1, -1] 1 = 1 := by
    norm_num [lagAt, wPair, getElemConsZero, getElemConsOne]
  have hcp0 : condPermZ 0 0 0 [(1 : ℚ), -1] = [1, -1] := by
    norm_num [condPermZ, shuffle, shuffleFuel, seedFor2, lcg]
  have hcp1 : condPermZ 0 1 0 [(1 : ℚ), -1] = [1, -1] := by
    norm_num [condPermZ, shuffle, shuffleFuel, seedFor2, lcg]
  have hIi0 : localIi wPair [1, -1] 0 = -1 := by
    norm_num [localIi, hm2, hlag0, getElemConsZero]
  have hIi1 : localIi wPair [1, -1] 1 = -1 := by
    norm_num [localIi, hm2, hlag1, getElemConsOne]
  have hp0 : localP [(1 : ℚ), -1] wPair 1 0 0 = 1 := by
    simp only [localP, hdev, rangeOne, List.map_cons, List.map_nil, hcp0, hIi0]
    norm_num [List.countP_cons, List.countP_nil]
  have hp1 : localP [(1 : ℚ), -1] wPair 1 0 1 = 1 := by
    simp only [localP, hdev, rangeOne, List.map_cons, List.map_nil, hcp1, hIi1]
    norm_num [List.countP_cons, List.countP_nil]
  simp only [lisa, yPair, hdev, lsPairRes]
  norm_num [localMoranAt, hdev, hIi0, hIi1, hp0, hp1, hlag0, hlag1, quadrant,
    rangeTwo, hss, getElemConsZero, getElemConsOne]

/-- Witness for C6 at `y = [1,-1]`, the pair weights, `R = 1`, seed 0. -/
theorem p_sim_bounds_witness :
    (1 / (((1 : ℕ) : ℚ) + 1) ≤ gPairRes.p_sim ∧ gPairRes.p_sim ≤ 1) ∧
    lsPairRes.all
      (fun lr => decide (1 / (((1 : ℕ) : ℚ) + 1) ≤ lr.p_sim ∧ lr.p_sim ≤ 1)) = true :=
  p_sim_bounds yPair wPair 1 0 gPairRes lsPairRes (by decide) moranPairEval lisaPairEval

/-- Claim C7: `k < 1` or `k ≥ N` is rejected with `InvalidK` by the
neighbor-graph construction, and the pipeline then fails with that same
error before any statistic is computed. -/
theorem knn_invalid_k (coords : List (ℚ × ℚ)) (y : List ℚ) (k R seed : ℕ)
    (h : k < 1 ∨ coords.length ≤ k) :
    knnBuild coords k = .error .InvalidK ∧
    runPipeline coords y k R seed = .error .InvalidK := by
  have h1 : knnBuild coords k = .error .InvalidK := by
    simp only [knnBuild]
    rw [if_pos h]
  refine ⟨h1, ?_⟩
  simp only [runPipeline]
  rw [h1]
  rfl

/-- Witness for C7 at three coordinates and `k = 5 ≥ N = 3`. -/
theorem knn_invalid_k_witness :
    knnBuild [(0, 0), (1, 0), (5, 0)] 5 = .error .InvalidK ∧
    runPipeline [(0, 0), (1, 0), (5, 0)] [1, 2, 3] 5 1 0 = .error .InvalidK :=
  knn_invalid_k [(0, 0), (1, 0), (5, 0)] [1, 2, 3] 5 1 0 (Or.inr (by decide))

/-- Claim C8 counterexample: non-finite inputs are not rejected with a
`NonFiniteInput` error by the script's data preparation.  A record with
NaN `total_uf` is silently dropped (the value array is just empty, no
error value exists on this path), and a record with infinite `total_uf`
passes the filter and its infinite `precio_m2` enters the value array
handed to the statistics. -/
theorem nonfinite_not_rejected_cex :
    yValues [⟨FVal.nan, FVal.fin 1⟩] = [] ∧
    yValues [⟨FVal.pinf, FVal.fin 1⟩] = [FVal.pinf] := by decide

/-- Claim C8 (amended): the filter preceding the statistics silently
drops exactly the rows whose `t_constr` does not compare above 0 or
whose `precio_m2` is NaN; every other value — including infinities —
passes through to the value array, and no error is signalled. -/
theorem filter_drops_nan_keeps_rest (g : List Record) :
    yValues g =
      (g.filter (fun r => FVal.flt (FVal.fin 0) r.t_constr &&
        !(precio_m2 r).isNaN)).map precio_m2 := by
  induction g with
  | nil => rfl
  | cons r g ih =>
      simp only [yValues, filteredRecords, List.map_cons, List.filter_cons] at ih ⊢
      by_cases h1 : FVal.flt (FVal.fin 0) r.t_constr = true <;>
        by_cases h2 : (!(precio_m2 r).isNaN) = true <;>
          simp_all

/-- Claim C9: the LISA output has one result per unit and is aligned by
original unit index — position `i` of the stored cluster column holds
unit `i`'s quadrant code, and position `i` of the stored significance
column holds unit `i`'s flag `p_i < 0.05`. -/
theorem lisa_output_aligned (y : List ℚ) (w : List (List (ℕ × ℚ)))
    (R seed : ℕ) (ls : List LocalMoranResult) (i : ℕ)
    (hl : lisa y w R seed = .ok ls) (hi : i < y.length) :
    ls.length = y.length ∧
    (ls.map (fun lr => lr.q)).getD i 0 =
      quadrant ((devs y).getD i 0) (lagAt w (devs y) i) ∧
    (lisa_sig (ls.map (fun lr => lr.p_sim))).getD i false =
      decide (localP y w R seed i < 5 / 100) := by
  simp only [lisa] at hl
  by_cases hz : sumSq (devs y) = 0
  · rw [if_pos hz] at hl
    exact absurd hl (by simp)
  · rw [if_neg hz] at hl
    have hls := Except.ok.inj hl
    subst hls
    refine ⟨by simp, ?_, ?_⟩
    · simp [List.getD_eq_getElem?_getD, List.getElem?_map, List.getElem?_range,
        hi, localMoranAt]
    · simp [lisa_sig, List.getD_eq_getElem?_getD, List.getElem?_map,
        List.getElem?_range, hi, localMoranAt]

/-- Witness for C9 at `y = [1,-1]`, the pair weights, `R = 1`, seed 0,
unit 0. -/
theorem lisa_output_aligned_witness :
    lsPairRes.length = yPair.length ∧
    (lsPairRes.map (fun lr => lr.q)).getD 0 0 =
      quadrant ((devs yPair).getD 0 0) (lagAt wPair (devs yPair) 0) ∧
    (lisa_sig (lsPairRes.map (fun lr => lr.p_sim))).getD 0 false =
      decide (localP yPair wPair 1 0 0 < 5 / 100) :=
  lisa_output_aligned yPair wPair 1 0 lsPairRes 0 lisaPairEval (by decide)

/-- Every record retained by the script's filter passed the
`t_constr > 0` test, carries `precio_m2` of its own record, and that
value is not NaN. -/
theorem memFilteredProps (g : List Record) (pr : Record × FVal)
    (hpr : pr ∈ filteredRecords g) :
    FVal.flt (FVal.fin 0) pr.1.t_constr = true ∧
    pr.2 = precio_m2 pr.1 ∧ (precio_m2 pr.1).isNaN = false := by
  obtain ⟨hpr1, hq⟩ := List.mem_filter.mp hpr
  obtain ⟨hpr2, hp⟩ := List.mem_filter.mp hpr1
  obtain ⟨r, hr, heq⟩ := List.mem_map.mp hpr2
  have h2 : pr.2 = precio_m2 pr.1 := by
    rw [← heq]
  refine ⟨hp, h2, ?_⟩
  rw [← h2]
  simpa using hq

/-- Claim C10: after the filtering step every retained record has
`t_constr` comparing strictly above 0 and a non-NaN `precio_m2`, and
the value array `y` handed to the Moran computations contains no NaN
(in particular no 0/0 division result survives the filter). -/
theorem filtered_positive_and_no_nan (g : List Record)
    (pr : Record × FVal) (v : FVal)
    (hpr : pr ∈ filteredRecords g) (hv : v ∈ yValues g) :
    FVal.flt (FVal.fin 0) pr.1.t_constr = true ∧
    pr.2 = precio_m2 pr.1 ∧ (precio_m2 pr.1).isNaN = false ∧
    v.isNaN = false := by
  obtain ⟨hp, h2, hnan⟩ := memFilteredProps g pr hpr
  refine ⟨hp, h2, hnan, ?_⟩
  obtain ⟨pr', hpr', hveq⟩ := List.mem_map.mp hv
  obtain ⟨-, h2', hnan'⟩ := memFilteredProps g pr' hpr'
  rw [← hveq, h2', hnan']

/-- Witness for C10 at a one-record table with `total_uf = 10`,
`t_constr = 2`. -/
theorem filtered_positive_and_no_nan_witness :
    FVal.flt (FVal.fin 0) (Record.mk (FVal.fin 10) (FVal.fin 2)).t_constr = true ∧
    (FVal.fin 5 : FVal) = precio_m2 (Record.mk (FVal.fin 10) (FVal.fin 2)) ∧
    (precio_m2 (Record.mk (FVal.fin 10) (FVal.fin 2))).isNaN = false ∧
    (FVal.fin 5 : FVal).isNaN = false :=
  filtered_positive_and_no_nan [⟨FVal.fin 10, FVal.fin 2⟩]
    (⟨FVal.fin 10, FVal.fin 2⟩, FVal.fin 5) (FVal.fin 5)
    (by norm_num [filteredRecords, precio_m2, FVal.fdiv, FVal.flt, FVal.isNaN])
    (by norm_num [yValues, filteredRecords, precio_m2, FVal.fdiv, FVal.flt, FVal.isNaN])

